import Mathlib

/-!
Verification of the Promptr editor extension (extension.ts) against its
natural-language specification.  The TypeScript source is shallowly embedded:
pure helpers become Lean functions, the stateful command pipeline becomes a
function over an explicit environment (the ambient editor/OS/network state)
and a gate-cache state record, with an event trace recording the externally
observable effects (clipboard reads/writes, keystrokes, network calls,
user-facing messages).
-/

namespace Promptr

/-! ## String search primitives

JavaScript `String.prototype.includes` is embedded as a direct substring
scan over the character list, and the case-insensitive regular-expression
tests (`/.../i` over fixed literal alternatives) as a scan that compares
characters up to `Char.toLower`. -/

/-- Substring occurrence check on character lists, mirroring the semantics of
JavaScript `hay.includes(needle)`. -/
def includesList (needle : List Char) : List Char → Bool
  | [] => needle.isEmpty
  | c :: t => needle.isPrefixOf (c :: t) || includesList needle t

/-- JavaScript `hay.includes(needle)` on strings. -/
def strIncludes (hay needle : String) : Bool :=
  includesList needle.data hay.data

/-- Case-insensitive character equality, as used by a `/.../i` regex test on
ASCII-literal patterns. -/
def ciCharEq (a b : Char) : Bool :=
  a.toLower == b.toLower

/-- Case-insensitive prefix match of a pattern against a character list. -/
def ciPrefixMatch : List Char → List Char → Bool
  | [], _ => true
  | _ :: _, [] => false
  | a :: as, b :: bs => ciCharEq a b && ciPrefixMatch as bs

/-- Case-insensitive occurrence scan: does the pattern match somewhere in the
character list?  This is `/pat/i.test(s)` for a literal pattern `pat`. -/
def ciSearch (pat : List Char) : List Char → Bool
  | [] => pat.isEmpty
  | c :: t => ciPrefixMatch pat (c :: t) || ciSearch pat t

/-! ## Leak guard (extension.ts, generatePromptCmd)

`const leaked = aiResponse.includes(sentinel) ||
   /### CORE OBJECTIVE ###|### USER-PROVIDED CONTEXT ###/i.test(aiResponse);` -/

/-- First fixed internal section-header pattern of the leak regex. -/
def headerCore : String := "### CORE OBJECTIVE ###"

/-- Second fixed internal section-header pattern of the leak regex. -/
def headerUserCtx : String := "### USER-PROVIDED CONTEXT ###"

/-- Leak check from generatePromptCmd: the response contains the sentinel as
a substring, or matches one of the two fixed internal section-header
patterns case-insensitively. -/
def leakCheck (responseText sentinel : String) : Bool :=
  strIncludes responseText sentinel
    || ciSearch headerCore.data responseText.data
    || ciSearch headerUserCtx.data responseText.data

/-- Suspicious-instruction detector
`/(ignore|override|disregard|forget previous|system prompt|jailbreak)/i`. -/
def containsOverridePhrases (text : String) : Bool :=
  ciSearch "ignore".data text.data
    || ciSearch "override".data text.data
    || ciSearch "disregard".data text.data
    || ciSearch "forget previous".data text.data
    || ciSearch "system prompt".data text.data
    || ciSearch "jailbreak".data text.data

/-! ## Sentinel generation (extension.ts, generateSentinel)

`Math.random().toString(36).slice(2, 7).toUpperCase()` prefixed by
the marker (two U+2063 invisible separators, then `PROMPTR_`).  The
random draw is modelled by the sequence of
base-36 fraction digits that `toString(36)` emits for it; `slice(2, 7)`
keeps the first (up to) five of them. -/

/-- Digit-to-character map of JavaScript `Number.prototype.toString(36)`. -/
def base36Char (n : Nat) : Char :=
  if n < 10 then Char.ofNat (48 + n) else Char.ofNat (87 + n)

/-- Uppercased tag built from the random draw: the first at most five base-36
fraction digits, uppercased. -/
def sentinelTag (digits : List (Fin 36)) : List Char :=
  (digits.take 5).map (fun d => Char.toUpper (base36Char d.val))

/-- Fresh sentinel for one request: a zero-width (non-printing) character
pair, the fixed namespace marker, then the random tag. -/
def generateSentinel (digits : List (Fin 36)) : String :=
  "\u2063\u2063PROMPTR_" ++ String.mk (sentinelTag digits)

/-! ## System prompt construction (extension.ts, aiCall)

The prompt is accumulated by successive `contextualPrompt +=` steps, exactly
as in the source: sentinel plus a space, then the user-context block when the
(trimmed) custom context is non-empty, then the fixed role sentence, then the
codebase-context block when codebase signals are present, then the remainder
of the fixed instruction template (which itself interpolates the optional
INTEGRATION PRIORITY line). -/

/-- Auto-detected project metadata (interface of the codebase-scanning
collaborator, analyzeCodebase). -/
structure CodebaseContext where
  languages : List String
  frameworks : List String
  dependencies : List String
  fileStructure : List String
  projectType : String
deriving DecidableEq

/-- JavaScript `s || d` for a string `s`: the empty string falls back to the
default. -/
def orDefault (s d : String) : String :=
  if s == "" then d else s

/-- Condition guarding the codebase-context block: the project type is known
or languages, frameworks or dependencies were detected. -/
def hasCodebaseSignals (ctx : CodebaseContext) : Bool :=
  ctx.projectType != "unknown" || decide (0 < ctx.languages.length)
    || decide (0 < ctx.frameworks.length) || decide (0 < ctx.dependencies.length)

/-- Fixed role sentence, the first fragment of the instruction template. -/
def roleSentence : String :=
  "You are a **senior product designer**, **technical writer**, and **full-stack architect** with 10+ years of experience in enterprise software development. Your expertise lies in transforming high-level concepts into comprehensive, actionable technical specifications."

/-- Codebase-context block appended when codebase signals are present. -/
def codebaseBlock (ctx : CodebaseContext) : String :=
  "\n\n### CODEBASE CONTEXT ###\n**Project Type:** " ++ ctx.projectType
    ++ "\n**Languages:** " ++ orDefault (String.intercalate ", " ctx.languages) "Not detected"
    ++ "\n**Frameworks:** " ++ orDefault (String.intercalate ", " ctx.frameworks) "None detected"
    ++ "\n**Key Dependencies:** " ++ String.intercalate ", " (ctx.dependencies.take 8)
    ++ "\n**Structure:** " ++ orDefault (String.intercalate ", " ctx.fileStructure) "Standard layout"
    ++ "\n\n**INTEGRATION DIRECTIVE:** Leverage this technical context to ensure all recommendations align with the existing tech stack and project architecture. Prioritize solutions that integrate seamlessly with current "
    ++ (if decide (0 < ctx.frameworks.length) then String.intercalate "/" ctx.frameworks else "technology stack")
    ++ "."

/-- Fixed instruction template, part before the INTEGRATION PRIORITY
interpolation. -/
def templateRestA : String :=
  "\n\n### CORE OBJECTIVE ###\nTransform brief user ideas into comprehensive, production-ready technical specifications that serve as definitive blueprints for development teams.\n\n### REASONING METHODOLOGY ###\nApply step-by-step analysis:\n1. Parse user intent and constraints\n2. Identify technical requirements and dependencies\n3. Structure comprehensive specification\n4. Validate against best practices.\n\n### OUTPUT STRUCTURE ###\nGenerate your response using **only** the following sections that are relevant to the user\x27s request. Use clear markdown formatting with proper hierarchical headers:\n\n#### **1. REFINED SUMMARY**\n- Rewrite the original concept in professional, precise language\n- Clarify scope, objectives, and success metrics\n- Maximum 2-3 sentences, focus on core value proposition\n\n#### **2. USER STORIES & USE CASES**\n- Format: \"As a [specific role], I want [specific goal] so that [clear benefit/outcome]\"\n- Prioritize by impact and feasibility\n- Include edge cases and error scenarios\n\n#### **3. FEATURE BREAKDOWN**\n- Enumerate concrete, measurable features\n- Organize by priority (MVP vs. future releases)\n- Include technical acceptance criteria for each feature\n\n#### **4. ARCHITECTURE & TECHNICAL RECOMMENDATIONS**\n- Specify recommended tech stack with rationale\n- Include integration patterns, data flow, and system boundaries\n- Address scalability, security, and maintainability concerns\n"

/-- Interpolated INTEGRATION PRIORITY line (present when frameworks were
detected). -/
def integrationLine (ctx : CodebaseContext) : String :=
  if decide (0 < ctx.frameworks.length) then
    "- **INTEGRATION PRIORITY:** Detail how to integrate with existing "
      ++ String.intercalate "/" ctx.frameworks ++ " infrastructure"
  else ""

/-- Fixed instruction template, part after the INTEGRATION PRIORITY
interpolation. -/
def templateRestB : String :=
  "\n\n#### **5. DEVELOPMENT ROADMAP**\n- Phase-based delivery plan with clear milestones\n- Resource requirements and timeline estimates\n- Risk mitigation strategies for each phase\n\n#### **6. RISK ASSESSMENT & MITIGATION**\n- Technical risks (performance, security, compatibility)\n- Business risks (market fit, resource constraints)\n- Mitigation strategies with contingency plans\n\n#### **7. ACCESSIBILITY & USER EXPERIENCE**\n- Cross-platform compatibility considerations\n- Performance optimization strategies\n\n### CONSTRAINTS & QUALITY STANDARDS ###\n- **Specificity:** Provide concrete, implementable details\n- **Clarity:** Use precise technical language without jargon\n- **Completeness:** Address all aspects of the request\n- **Actionability:** Every recommendation must be executable\n- **No Commentary:** Exclude meta-explanations or process descriptions\n\n### EXAMPLES FOR GUIDANCE ###\n\"\"\"\nInput: \"Build a task management app\"\nOutput: Comprehensive spec covering user authentication, task CRUD operations, real-time collaboration, notification systems, etc.\n\nInput: \"Create a data visualization dashboard\"\nOutput: Detailed spec including data sources, chart types, filtering capabilities, export functions, responsive design, etc.\n\"\"\"\n\n**EXECUTE IMMEDIATELY:** Process the user\x27s input and generate the structured specification following the exact format above. Begin with the most relevant section based on the input complexity."

/-- System prompt assembly, mirroring the successive `contextualPrompt +=`
statements of aiCall.  `userContext` is the already-trimmed custom-context
setting. -/
def buildSystemPrompt (sentinel userContext : String) (ctx : CodebaseContext) : String :=
  let p1 := sentinel ++ " "
  let p2 := if userContext != "" then
      p1 ++ "### USER-PROVIDED CONTEXT ###\n" ++ userContext ++ "\n\n"
    else p1
  let p3 := p2 ++ roleSentence
  let p4 := if hasCodebaseSignals ctx then p3 ++ codebaseBlock ctx else p3
  p4 ++ (templateRestA ++ integrationLine ctx ++ templateRestB)

/-! ## Transport response handling (extension.ts, aiCall)

The HTTP layer is modelled at the boundary of the response callback: the
input is either the timeout event, an error event, or a finished response
carrying its status code, the accumulated body, and the result of
`JSON.parse(body)` (the parser itself is the JavaScript engine, modelled as
an oracle `Option Json` for the body). -/

/-- JavaScript `s.trim()`: strip whitespace from both ends (computed on the
character list so that it reduces in the kernel). -/
def jsTrim (s : String) : String :=
  String.mk (((s.data.dropWhile Char.isWhitespace).reverse.dropWhile
    Char.isWhitespace).reverse)

/-- JSON value, as produced by `JSON.parse`. -/
inductive Json where
  | null
  | bool (b : Bool)
  | num (n : Int)
  | str (s : String)
  | arr (elems : List Json)
  | obj (fields : List (String × Json))

/-- Object-field access, as in `x?.k` (non-objects and missing keys give
`undefined`). -/
def Json.getField : Json → String → Option Json
  | .obj fs, k => fs.lookup k
  | _, _ => none

/-- Array-index access, as in `x?.[i]`. -/
def Json.getIdx : Json → Nat → Option Json
  | .arr es, i => es.get? i
  | _, _ => none

/-- Navigation `json.choices?.[0]?.message?.content` by optional chaining. -/
def contentField (j : Json) : Option Json :=
  ((j.getField "choices").bind (fun c => c.getIdx 0)).bind
    (fun m => (m.getField "message").bind (fun mm => mm.getField "content"))

/-- Outcome of the transport layer as observed by the response callback. -/
inductive TransportInput where
  | timeout
  | netError (msg : String)
  | response (status : Option Nat) (body : String) (parsed : Option Json)

/-- Result of the awaited aiCall promise.  `destroyed` records whether
`req.destroy()` was invoked on the in-flight request before rejecting. -/
inductive AiOutcome where
  | rejected (msg : String) (destroyed : Bool)
  | resolved (response : String)
deriving DecidableEq

/-- Status test `!res.statusCode || res.statusCode < 200 ||
res.statusCode >= 300`, negated. -/
def is2xx : Option Nat → Bool
  | none => false
  | some n => decide (200 ≤ n) && decide (n < 300)

/-- Rendering of `res.statusCode` inside the error template string. -/
def statusToString : Option Nat → String
  | none => "undefined"
  | some n => toString n

/-- Response handling of aiCall: non-2xx (or missing) status rejects with
status and body; timeout destroys the request and rejects; a parsed 2xx
body resolves with `choices[0].message.content` when it is a string, with
the substitute marker when the field is absent, and rejects when the body
fails to parse or the field holds a non-string (whose `.trim()` throws). -/
def aiCallRespond : TransportInput → AiOutcome
  | .timeout => .rejected "Request timeout" true
  | .netError m => .rejected m false
  | .response status body parsed =>
    if is2xx status then
      match parsed with
      | none => .rejected "JSON parse error" false
      | some j =>
        match contentField j with
        | some (.str s) => .resolved (jsTrim s)
        | some _ => .rejected "TypeError" false
        | none => .resolved (jsTrim "Error: no content")
    else .rejected ("HTTP " ++ statusToString status ++ ": " ++ body) false

/-! ## Editor delivery arithmetic (extension.ts, generatePromptCmd)

After a successful in-place edit the code recomputes a selection that is
meant to cover exactly the inserted response:

    new vscode.Selection(
      originalSelection.start,
      new vscode.Position(
        originalSelection.start.line + aiResponse.split('\n').length - 1,
        aiResponse.split('\n').length === 1
          ? originalSelection.start.character + aiResponse.length
          : aiResponse.split('\n').pop()!.length))

Documents are character lists; a selection is represented by the document
decomposition `before ++ selected ++ after`. -/

/-- JavaScript `s.split('\n')` on a character list. -/
def jsSplitNL : List Char → List (List Char)
  | [] => [[]]
  | c :: rest =>
    if c = '\n' then [] :: jsSplitNL rest
    else
      match jsSplitNL rest with
      | [] => [[c]]
      | h :: t => (c :: h) :: t

/-- Characters after the last newline of a character list (the last line). -/
def lastSeg (s : List Char) : List Char :=
  (s.reverse.takeWhile (fun c => c != '\n')).reverse

/-- Line/character position of a character offset in a document: the line is
the number of newlines before the offset, the character the length of the
current last line. -/
def posAt (doc : List Char) (off : Nat) : Nat × Nat :=
  ((doc.take off).count '\n', (lastSeg (doc.take off)).length)

/-- End position of the re-selection computed by the source (split-based
line/character arithmetic). -/
def newSelEnd (startLine startChar : Nat) (resp : List Char) : Nat × Nat :=
  ( startLine + (jsSplitNL resp).length - 1,
    if (jsSplitNL resp).length == 1 then startChar + resp.length
    else ((jsSplitNL resp).getLastD []).length )

/-- Editor delivery on a document `before ++ sel ++ after` whose selection is
`sel`: replace the selection with the response, copy the response to the
clipboard, and re-select from the original start to the computed end.
Returns (new document, (selection start, selection end), clipboard). -/
def deliverEditor (before sel after resp : List Char) :
    List Char × ((Nat × Nat) × (Nat × Nat)) × List Char :=
  let newDoc := before ++ resp ++ after
  let start := posAt (before ++ sel ++ after) before.length
  (newDoc, (start, newSelEnd start.1 start.2 resp), resp)

/-! ## The generate command pipeline (extension.ts, generatePromptCmd)

Module-level mutable gate caches become an explicit `GateState`; the ambient
editor/OS/network state of one invocation becomes an `Env`.  Externally
observable effects are recorded as an ordered event trace.  External
collaborators (checkUserAccess, getStoredToken, checkUsageLimit, the OS-level
copy effect, the transport) are oracles in the environment, matching the
interface boundary of the specification. -/

/-- Externally observable effect of one pipeline invocation. -/
inductive Event where
  | accessCheck
  | tokenLookup
  | usageCheck
  | statusRefresh
  | clipboardRead
  | copyKeystroke
  | clipboardWrite (s : String)
  | pasteKeystroke
  | editorEdit (s : String)
  | request
  | errorMsg (m : String)
  | warnMsg (m : String)
  | infoMsg (m : String)
deriving DecidableEq

/-- Module-level mutable gate caches:
`usageCheckCounter`, `lastUsageAllowed`, `authStatusCache`, `lastAuthCheck`. -/
structure GateState where
  usageCheckCounter : Nat
  lastUsageAllowed : Option Bool
  authStatusCache : Option Bool
  lastAuthCheck : Nat
deriving DecidableEq

/-- Gate caches at module load. -/
def initialGateState : GateState :=
  { usageCheckCounter := 0, lastUsageAllowed := none
    authStatusCache := none, lastAuthCheck := 0 }

/-- Ambient state of a single command invocation.  `osCopyEffect` is the
clipboard content produced by the simulated OS copy keystroke reaching the
focused application (`none`: the keystroke had no effect, so the clipboard
is unchanged). -/
structure Env where
  now : Nat
  accessResult : Bool
  storedToken : Option String
  usageResult : Bool
  editorActive : Bool
  selectionNonEmpty : Bool
  selectionText : String
  documentText : String
  clipboard : String
  osCopyEffect : Option String
  transport : TransportInput
  sentinelDigits : List (Fin 36)
  editApplies : Bool

/-- Freshness test of the auth cache:
`authStatusCache === null || now - lastAuthCheck > 300000`. -/
def authFresh (st : GateState) (env : Env) : Bool :=
  st.authStatusCache.isNone || decide (300000 < env.now - st.lastAuthCheck)

/-- Cached or freshly fetched auth decision. -/
def authValue (st : GateState) (env : Env) : Option Bool :=
  if authFresh st env then some env.accessResult else st.authStatusCache

/-- Freshness test of the usage cache:
`usageCheckCounter % 10 === 0 || lastUsageAllowed === null`. -/
def usageFresh (st : GateState) : Bool :=
  st.usageCheckCounter % 10 == 0 || st.lastUsageAllowed.isNone

/-- Cached or freshly fetched usage decision. -/
def usageValue (st : GateState) (env : Env) : Option Bool :=
  if usageFresh st then some env.usageResult else st.lastUsageAllowed

/-- Gate sequence of generatePromptCmd: cached access check, stored-token
lookup, cached usage-limit check.  Returns the updated caches, the events,
and whether the pipeline proceeds. -/
def gatePhase (st : GateState) (env : Env) : GateState × List Event × Bool :=
  let aev : List Event := if authFresh st env then [.accessCheck] else []
  let st1 : GateState :=
    { st with authStatusCache := authValue st env
              lastAuthCheck := if authFresh st env then env.now else st.lastAuthCheck }
  if authValue st env = some true then
    match env.storedToken with
    | none =>
      (st1, aev ++ [.tokenLookup,
        .errorMsg "Please enter your Promptr access token to continue."], false)
    | some _ =>
      let uev : List Event := if usageFresh st1 then [.usageCheck] else []
      let st2 : GateState :=
        { st1 with lastUsageAllowed := usageValue st1 env
                   usageCheckCounter := st1.usageCheckCounter + 1 }
      (st2, aev ++ [.tokenLookup] ++ uev, usageValue st1 env == some true)
  else
    (st1, aev, false)

/-- Clipboard content after the simulated OS copy keystroke. -/
def postCopyClip (env : Env) : String :=
  env.osCopyEffect.getD env.clipboard

/-- autoCopy: copy via the built-in editor command when an editor selection
exists; otherwise snapshot the clipboard, dispatch the OS copy keystroke and
poll the clipboard (once when it settles with changed non-empty content,
five times otherwise).  Returns the clipboard after the call and the
events. -/
def autoCopyRun (env : Env) : String × List Event :=
  if env.editorActive && env.selectionNonEmpty then
    (env.selectionText, [.copyKeystroke])
  else
    let c := postCopyClip env
    let poll : List Event :=
      if c != "" && c != env.clipboard then [.clipboardRead]
      else [.clipboardRead, .clipboardRead, .clipboardRead, .clipboardRead, .clipboardRead]
    (c, [.clipboardRead, .copyKeystroke] ++ poll)

/-- getChatSelectedText: autoCopy, settle delay, then read the clipboard and
accept it when non-blank. -/
def getChatSelectedTextRun (env : Env) : Option String × String × List Event :=
  let r := autoCopyRun env
  let clip := r.1
  let ev := r.2 ++ [Event.clipboardRead]
  if clip != "" && jsTrim clip != "" then (some clip, clip, ev) else (none, clip, ev)

/-- getSelectedTextCrossPlatform: editor selection, then chat-surface copy
probe, then the clipboard fallback read. -/
def getSelectedTextCrossPlatformRun (env : Env) : Option String × List Event :=
  if env.editorActive && env.selectionNonEmpty then
    (some env.selectionText, [])
  else
    let r := getChatSelectedTextRun env
    match r.1 with
    | some t => (some t, r.2.2)
    | none =>
      let ev := r.2.2 ++ [Event.clipboardRead]
      if r.2.1 != "" && jsTrim r.2.1 != "" then (some r.2.1, ev) else (none, ev)

/-- Classification of the text source (generatePromptCmd). -/
inductive TextSource where
  | editorSelection
  | chatOrClipboard
  | fullDocument
deriving DecidableEq

/-- Source classification: the retrieved text comes from the editor exactly
when an active non-empty selection exists whose text equals it (this keeps
the original selection range for in-place replacement). -/
def classifySource (env : Env) (t : String) : TextSource :=
  if env.editorActive && env.selectionNonEmpty && (env.selectionText == t) then
    .editorSelection
  else .chatOrClipboard

/-- Acquisition phase of generatePromptCmd: cross-platform retrieval,
classification, then the full-document fallback. -/
def acquirePhase (env : Env) : Option (String × TextSource) × List Event :=
  let r := getSelectedTextCrossPlatformRun env
  match r.1 with
  | some t =>
    if t != "" then (some (t, classifySource env t), r.2)
    else if env.editorActive && env.documentText != "" then
      (some (env.documentText, .fullDocument), r.2)
    else (none, r.2)
  | none =>
    if env.editorActive && env.documentText != "" then
      (some (env.documentText, .fullDocument), r.2)
    else (none, r.2)

/-- Pipeline outcome, used to state atomicity of delivery. -/
inductive Outcome where
  | aborted
  | noText
  | suspiciousBlocked
  | requestFailed
  | leakBlocked
  | editorReplaced (resp : String)
  | editFailed
  | autoPasted (resp : String)
deriving DecidableEq

/-- Result of one command invocation. -/
structure RunResult where
  state : GateState
  events : List Event
  outcome : Outcome
deriving DecidableEq

/-- Post-acquisition phase: fresh sentinel, request, response handling, leak
check, then delivery (in-place edit plus clipboard copy and re-selection for
an editor source; clipboard write plus paste keystroke otherwise). -/
def deliveryPhase (st : GateState) (ev : List Event) (env : Env) (src : TextSource) :
    RunResult :=
  let sentinel := generateSentinel env.sentinelDigits
  let ev := ev ++ [Event.request]
  match aiCallRespond env.transport with
  | .rejected _ _ =>
    ⟨st, ev ++ [.errorMsg "AI request failed. Please try again."], .requestFailed⟩
  | .resolved resp =>
    if leakCheck resp sentinel then
      ⟨st, ev ++ [.warnMsg "AI response was blocked for security reasons."], .leakBlocked⟩
    else if src == TextSource.editorSelection then
      if env.editApplies then
        ⟨st, ev ++ [.editorEdit resp, .clipboardWrite resp,
          .infoMsg "Promptr: Refined text ready (copied to clipboard)!"],
          .editorReplaced resp⟩
      else
        ⟨st, ev ++ [.errorMsg "Failed to replace text. Please try again."], .editFailed⟩
    else
      ⟨st, ev ++ [.clipboardWrite resp, .pasteKeystroke,
        .infoMsg "Promptr: Refined text ready (copied to clipboard)!"],
        .autoPasted resp⟩

/-- Pipeline after a passing gate: asynchronous status-bar refresh, then
acquisition, the suspicious-input heuristic, and the request/delivery leg. -/
def afterGate (st : GateState) (gev : List Event) (env : Env) : RunResult :=
  let gev2 := gev ++ [Event.statusRefresh]
  let a := acquirePhase env
  match a.1 with
  | none =>
    ⟨st, gev2 ++ a.2 ++ [.errorMsg "Please select some text to refine first."], .noText⟩
  | some (t, src) =>
    if containsOverridePhrases t then ⟨st, gev2 ++ a.2, .suspiciousBlocked⟩
    else deliveryPhase st (gev2 ++ a.2) env src

/-- One full invocation of the generate command. -/
def generatePromptRun (st : GateState) (env : Env) : RunResult :=
  let g := gatePhase st env
  if g.2.2 then afterGate g.1 g.2.1 env
  else ⟨g.1, g.2.1, .aborted⟩

/-- Priority list of acquisition sources as described by the specification:
editor selection, clipboard after the copy probe, the clipboard as read at
the fallback step (equal to the pre-existing clipboard whenever the probe
left it unchanged), and the full document of an active editor. -/
def acquisitionSources (env : Env) : List (Option String) :=
  [ if env.editorActive && env.selectionNonEmpty then some env.selectionText else none,
    if postCopyClip env != "" && jsTrim (postCopyClip env) != "" then some (postCopyClip env) else none,
    if postCopyClip env != "" && jsTrim (postCopyClip env) != "" then some (postCopyClip env) else none,
    if env.editorActive && env.documentText != "" then some env.documentText else none ]

/-- Flag sequence over consecutive invocations: whether each invocation
performed a fresh usage-limit check. -/
def usageFlags : GateState → List Env → List Bool
  | _, [] => []
  | st, e :: es =>
    decide (Event.usageCheck ∈ (gatePhase st e).2.1) :: usageFlags (gatePhase st e).1 es

/-! ## Concrete fixtures for witness instantiations -/

/-- Sample codebase context with detected signals. -/
def ctxReact : CodebaseContext :=
  { languages := ["TypeScript"], frameworks := ["React"], dependencies := ["react"]
    fileStructure := ["src"], projectType := "Frontend Application" }

/-- Well-formed completion envelope `{choices: [{message: {content: s}}]}`. -/
def jsonContent (s : String) : Json :=
  .obj [("choices", .arr [.obj [("message", .obj [("content", .str s)])]])]

/-- Baseline invocation environment: authorized user, editor selection
present, well-formed transport response. -/
def envBase : Env :=
  { now := 0, accessResult := true, storedToken := some "tok", usageResult := true
    editorActive := true, selectionNonEmpty := true
    selectionText := "fix this sentence", documentText := "doc text"
    clipboard := "", osCopyEffect := none
    transport := .response (some 200) "body" (some (jsonContent "Fix this sentence."))
    sentinelDigits := [1, 2, 3, 4, 5], editApplies := true }

/-- Environment whose transport response echoes the request sentinel. -/
def envLeak : Env :=
  { envBase with
    transport := .response (some 200) "body"
      (some (jsonContent "\u2063\u2063PROMPTR_12345")) }

/-- Environment with no editor, an empty clipboard and a failed copy probe. -/
def envNoText : Env :=
  { envBase with editorActive := false, selectionNonEmpty := false }

/-- Environment with no editor but a pre-copied clipboard. -/
def envClip : Env :=
  { envNoText with clipboard := "draft idea" }

/-- Environment with no stored access token. -/
def envNoToken : Env :=
  { envBase with storedToken := none }

/-! # Theorems -/

/-! ## Substring-search correctness -/

/-- includesList decides the infix relation (JavaScript `includes`). -/
theorem includesList_iff (needle hay : List Char) :
    includesList needle hay = true ↔ needle <:+: hay := by
  induction hay with
  | nil => simp [includesList, List.isEmpty_iff]
  | cons c t ih => simp [includesList, List.infix_cons_iff, ih]

/-- ciPrefixMatch decides the prefix relation up to lowercasing. -/
theorem ciPrefixMatch_iff (pat s : List Char) :
    ciPrefixMatch pat s = true ↔ pat.map Char.toLower <+: s.map Char.toLower := by
  induction pat generalizing s with
  | nil => simp [ciPrefixMatch]
  | cons a as ih =>
    cases s with
    | nil => simp [ciPrefixMatch]
    | cons b bs => simp [ciPrefixMatch, ciCharEq, ih, List.cons_prefix_cons]

/-- ciSearch decides the infix relation up to lowercasing (a case-insensitive
literal regex test). -/
theorem ciSearch_iff (pat s : List Char) :
    ciSearch pat s = true ↔ pat.map Char.toLower <:+: s.map Char.toLower := by
  induction s with
  | nil => simp [ciSearch, List.isEmpty_iff]
  | cons c t ih => simp [ciSearch, ciPrefixMatch_iff, ih, List.infix_cons_iff]

/-! ## C4: leak check -/

/-- C4: the leak check is a pure function of the pair (responseText,
sentinel); it returns true if and only if the response contains the sentinel
as a substring, or contains one of the two fixed internal section-header
patterns case-insensitively.  Purity holds by construction: leakCheck is a
function of exactly these two arguments. -/
theorem c4_leakCheck_iff (responseText sentinel : String) :
    leakCheck responseText sentinel = true ↔
      sentinel.data <:+: responseText.data
      ∨ headerCore.data.map Char.toLower <:+: responseText.data.map Char.toLower
      ∨ headerUserCtx.data.map Char.toLower <:+: responseText.data.map Char.toLower := by
  simp [leakCheck, strIncludes, includesList_iff, ciSearch_iff, or_assoc]

/-! ## C3: sentinel generation -/

/-- C3 counterexample: two distinct random draws (six zero digits versus
five zero digits) produce the same sentinel, so sentinel values can repeat
across sequential requests; moreover the sentinel does not end with a
non-printing boundary character, so the tag is prefixed, not wrapped. -/
theorem c3_sentinel_counterexample :
    generateSentinel [0, 0, 0, 0, 0, 0] = generateSentinel [0, 0, 0, 0, 0]
    ∧ ([0, 0, 0, 0, 0, 0] : List (Fin 36)) ≠ [0, 0, 0, 0, 0]
    ∧ (generateSentinel [0, 0, 0, 0, 0, 0]).data.getLast? ≠ some '\u2063' := by
  decide

/-- C3 amended: every generated sentinel is the two non-printing U+2063
characters, the fixed namespace marker, then a random alphanumeric tag of at
most five characters; two sentinels coincide exactly when their random tags
coincide, so uniqueness across requests is only as strong as the random
draw. -/
theorem c3_sentinel_format (digits : List (Fin 36)) :
    (generateSentinel digits).data
        = '\u2063' :: '\u2063' :: ("PROMPTR_".data ++ sentinelTag digits)
    ∧ (sentinelTag digits).length ≤ 5
    ∧ (∀ c ∈ sentinelTag digits, c.isAlphanum = true)
    ∧ ∀ digits2 : List (Fin 36),
        (generateSentinel digits = generateSentinel digits2
          ↔ sentinelTag digits = sentinelTag digits2) := by
  refine ⟨?_, ?_, ?_, ?_⟩
  · simp [generateSentinel]
  · simp only [sentinelTag, List.length_map, List.length_take]
    omega
  · intro c hc
    simp only [sentinelTag, List.mem_map] at hc
    obtain ⟨d, -, rfl⟩ := hc
    have h : ∀ d : Fin 36, (Char.toUpper (base36Char d.val)).isAlphanum = true := by decide
    exact h d
  · intro digits2
    constructor
    · intro h
      have hd := congrArg String.data h
      simpa [generateSentinel] using hd
    · intro h
      simp [generateSentinel, h]

/-- C3 amended witness: at a concrete draw the tag characters are
alphanumeric and the sentinel-equality criterion instantiates. -/
theorem c3_sentinel_format_witness :
    Char.isAlphanum 'A' = true
    ∧ (generateSentinel [10] = generateSentinel [10, 7]
        ↔ sentinelTag [10] = sentinelTag [10, 7]) :=
  ⟨(c3_sentinel_format [10]).2.2.1 'A' (by decide),
    (c3_sentinel_format [10]).2.2.2 [10, 7]⟩

/-! ## C6: system prompt ordering -/

set_option maxRecDepth 16000 in
/-- C6 counterexample: with codebase signals present the codebase-context
block occurs inside the built prompt but is not its final segment — the
remainder of the fixed instruction template (CORE OBJECTIVE onwards) comes
after it — refuting the claim that the codebase block is appended after the
entire fixed template. -/
theorem c6_codebase_position_counterexample :
    hasCodebaseSignals ctxReact = true
    ∧ strIncludes (buildSystemPrompt "S" "" ctxReact) (codebaseBlock ctxReact) = true
    ∧ List.isSuffixOf (codebaseBlock ctxReact).data (buildSystemPrompt "S" "" ctxReact).data
        = false := by
  decide

/-- C6 amended: the system prompt is the ordered concatenation of the
sentinel, the custom-context block when non-empty, the fixed role sentence,
the codebase-context block when codebase signals are present, and finally
the remainder of the fixed instruction template — the codebase block
precedes the CORE OBJECTIVE section instead of coming last. -/
theorem c6_prompt_order (sentinel userContext : String) (ctx : CodebaseContext) :
    buildSystemPrompt sentinel userContext ctx
      = sentinel ++ " "
        ++ (if userContext != "" then
              "### USER-PROVIDED CONTEXT ###\n" ++ userContext ++ "\n\n"
            else "")
        ++ roleSentence
        ++ (if hasCodebaseSignals ctx then codebaseBlock ctx else "")
        ++ templateRestA ++ integrationLine ctx ++ templateRestB := by
  unfold buildSystemPrompt
  cases hu : (userContext != "") <;> cases hc : hasCodebaseSignals ctx <;>
    simp [hu, hc, String.append_assoc] <;> rfl

/-! ## C7: transport failure classification -/

/-- C7: a non-2xx (or missing) status rejects with an error carrying the
status code and the response body; a timeout destroys the in-flight request
and rejects; a 2xx JSON response lacking `choices[0].message.content`
does not fail but resolves with the substitute marker, so the pipeline
proceeds to the leak check and delivery. -/
theorem c7_transport_classification :
    (∀ (status : Option Nat) (body : String) (parsed : Option Json),
        is2xx status = false →
        aiCallRespond (.response status body parsed)
          = .rejected ("HTTP " ++ statusToString status ++ ": " ++ body) false)
    ∧ aiCallRespond .timeout = .rejected "Request timeout" true
    ∧ (∀ (status : Option Nat) (body : String) (j : Json),
        is2xx status = true → contentField j = none →
        aiCallRespond (.response status body (some j)) = .resolved "Error: no content") := by
  refine ⟨?_, rfl, ?_⟩
  · intro status body parsed h
    simp [aiCallRespond, h]
  · intro status body j h hc
    simp only [aiCallRespond, h, hc, if_true]
    decide

/-- C7 witness: a 404 rejects with status and body attached, and a 2xx body
without the content field resolves with the substitute marker. -/
theorem c7_transport_classification_witness :
    aiCallRespond (.response (some 404) "nope" none)
      = .rejected "HTTP 404: nope" false
    ∧ aiCallRespond (.response (some 200) "x" (some (.obj [("foo", .null)])))
      = .resolved "Error: no content" := by
  exact ⟨c7_transport_classification.1 (some 404) "nope" none (by decide),
    c7_transport_classification.2.2 (some 200) "x" (.obj [("foo", .null)]) (by decide) rfl⟩

/-! ## C9: editor delivery round trip -/

/-- takeWhile over an append stops inside the first part when the first part
has a failing element. -/
theorem takeWhile_append_stop {α : Type} {p : α → Bool} (l₁ l₂ : List α)
    (h : ∃ a ∈ l₁, p a = false) :
    (l₁ ++ l₂).takeWhile p = l₁.takeWhile p := by
  induction l₁ with
  | nil => simp at h
  | cons x xs ih =>
    by_cases hx : p x
    · simp only [List.cons_append, List.takeWhile_cons_of_pos hx]
      congr 1
      apply ih
      obtain ⟨a, ha, hpa⟩ := h
      rcases List.mem_cons.mp ha with rfl | hmem
      · exact absurd hx (by simp [hpa])
      · exact ⟨a, hmem, hpa⟩
    · simp [List.takeWhile_cons_of_neg hx]

/-- lastSeg of a whole list without newlines is the list itself. -/
theorem lastSeg_of_not_mem {s : List Char} (h : '\n' ∉ s) : lastSeg s = s := by
  unfold lastSeg
  have hall : ∀ a ∈ s.reverse, (a != '\n') = true := by
    intro a ha
    have hmem : a ∈ s := List.mem_reverse.mp ha
    simp only [bne_iff_ne, ne_eq]
    exact fun hEq => h (hEq ▸ hmem)
  rw [List.takeWhile_eq_self_iff.mpr hall, List.reverse_reverse]

/-- lastSeg over an append: the part after the last newline. -/
theorem lastSeg_append (A B : List Char) :
    lastSeg (A ++ B) = if '\n' ∈ B then lastSeg B else lastSeg A ++ B := by
  by_cases hB : '\n' ∈ B
  · rw [if_pos hB]
    unfold lastSeg
    rw [List.reverse_append,
      takeWhile_append_stop _ _ ⟨'\n', List.mem_reverse.mpr hB, by simp⟩]
  · rw [if_neg hB]
    unfold lastSeg
    have hall : ∀ a ∈ B.reverse, (a != '\n') = true := by
      intro a ha
      have hmem : a ∈ B := List.mem_reverse.mp ha
      simp only [bne_iff_ne, ne_eq]
      exact fun hEq => hB (hEq ▸ hmem)
    rw [List.reverse_append, List.takeWhile_append_of_pos hall, List.reverse_append,
      List.reverse_reverse]

/-- jsSplitNL never returns the empty list. -/
theorem jsSplitNL_ne_nil (s : List Char) : jsSplitNL s ≠ [] := by
  induction s with
  | nil => simp [jsSplitNL]
  | cons c t ih =>
    by_cases hc : c = '\n'
    · simp [jsSplitNL, hc]
    · simp only [jsSplitNL, if_neg hc]
      cases h : jsSplitNL t <;> simp

/-- Splitting a list without newlines gives the singleton. -/
theorem jsSplitNL_of_not_mem {s : List Char} (h : '\n' ∉ s) : jsSplitNL s = [s] := by
  induction s with
  | nil => rfl
  | cons c t ih =>
    simp only [List.mem_cons, not_or] at h
    have hc : ¬ c = '\n' := fun hh => h.1 hh.symm
    simp only [jsSplitNL, ih h.2]
    rw [if_neg hc]

/-- Length of the split is the newline count plus one. -/
theorem length_jsSplitNL (s : List Char) : (jsSplitNL s).length = s.count '\n' + 1 := by
  induction s with
  | nil => rfl
  | cons c t ih =>
    by_cases hc : c = '\n'
    · subst hc
      simp [jsSplitNL, ih, List.count_cons]
    · simp only [jsSplitNL, if_neg hc]
      rcases h : jsSplitNL t with _ | ⟨hh, tt⟩
      · exact absurd h (jsSplitNL_ne_nil t)
      · have ih2 := ih
        rw [h] at ih2
        simp only [List.length_cons] at ih2 ⊢
        rw [List.count_cons]
        simp [hc, ih2]

/-- Last element of the split is the segment after the last newline. -/
theorem getLastD_jsSplitNL (s : List Char) : (jsSplitNL s).getLastD [] = lastSeg s := by
  induction s with
  | nil => rfl
  | cons c t ih =>
    have hseg : lastSeg (c :: t) = if '\n' ∈ t then lastSeg t else lastSeg [c] ++ t := by
      have hdec : (c :: t : List Char) = [c] ++ t := rfl
      rw [hdec, lastSeg_append]
    by_cases hc : c = '\n'
    · subst hc
      rw [hseg]
      have hsplit : jsSplitNL ('\n' :: t) = [] :: jsSplitNL t := by
        simp [jsSplitNL]
      rw [hsplit, List.getLastD_cons, ih]
      by_cases ht : '\n' ∈ t
      · rw [if_pos ht]
      · rw [if_neg ht, lastSeg_of_not_mem ht]
        rfl
    · rw [hseg]
      rcases hsp : jsSplitNL t with _ | ⟨hh, tt⟩
      · exact absurd hsp (jsSplitNL_ne_nil t)
      · have hsplit : jsSplitNL (c :: t) = (c :: hh) :: tt := by
          simp only [jsSplitNL, if_neg hc, hsp]
        rw [hsplit]
        have ih2 := ih
        rw [hsp] at ih2
        by_cases ht : '\n' ∈ t
        · rw [if_pos ht]
          have hcount : 0 < t.count '\n' := List.count_pos_iff.mpr ht
          have hlen := length_jsSplitNL t
          rw [hsp] at hlen
          have htt : tt ≠ [] := by
            intro h0
            subst h0
            simp at hlen
            omega
          obtain ⟨y, ys, rfl⟩ := List.exists_cons_of_ne_nil htt
          rw [List.getLastD_cons] at ih2 ⊢
          rw [show (y :: ys).getLastD (c :: hh) = (y :: ys).getLastD hh from by
            rw [List.getLastD_cons, List.getLastD_cons]]
          exact ih2
        · rw [if_neg ht]
          have hone := jsSplitNL_of_not_mem ht
          rw [hsp] at hone
          obtain ⟨rfl, rfl⟩ : hh = t ∧ tt = [] := by
            injection hone with e1 e2
            exact ⟨e1, e2⟩
          have hcL : ('\n' : Char) ∉ ([c] : List Char) := by
            simp only [List.mem_singleton]
            exact fun hEq => hc hEq.symm
          rw [lastSeg_of_not_mem hcL]
          rfl

/-- C9: editor delivery replaces the original selection in place with the
response, writes the response to the clipboard, keeps the selection start at
the insertion point, and the split-based end-position arithmetic of the
source lands exactly at the end of the inserted text — so the re-selected
range extracts exactly the response, for single-line and multi-line
responses alike. -/
theorem c9_editor_delivery_round_trip (before sel after resp : List Char) :
    (deliverEditor before sel after resp).1 = before ++ resp ++ after
    ∧ (deliverEditor before sel after resp).2.2 = resp
    ∧ (deliverEditor before sel after resp).2.1.1
        = posAt (before ++ resp ++ after) before.length
    ∧ (deliverEditor before sel after resp).2.1.2
        = posAt (before ++ resp ++ after) (before.length + resp.length)
    ∧ ((before ++ resp ++ after).drop before.length).take resp.length = resp := by
  have e1 : (before ++ sel ++ after).take before.length = before := by
    rw [List.append_assoc]
    exact List.take_left before (sel ++ after)
  have e2 : (before ++ resp ++ after).take before.length = before := by
    rw [List.append_assoc]
    exact List.take_left before (resp ++ after)
  have e3 : (before ++ resp ++ after).take (before.length + resp.length)
      = before ++ resp :=
    List.take_left' (List.length_append before resp)
  refine ⟨rfl, rfl, ?_, ?_, ?_⟩
  · show posAt (before ++ sel ++ after) before.length
        = posAt (before ++ resp ++ after) before.length
    unfold posAt
    rw [e1, e2]
  · show newSelEnd (posAt (before ++ sel ++ after) before.length).1
        (posAt (before ++ sel ++ after) before.length).2 resp
        = posAt (before ++ resp ++ after) (before.length + resp.length)
    unfold posAt newSelEnd
    rw [e1, e3, length_jsSplitNL, getLastD_jsSplitNL, List.count_append]
    by_cases hn : '\n' ∈ resp
    · have hc : 0 < resp.count '\n' := List.count_pos_iff.mpr hn
      have hcond : (resp.count '\n' + 1 == 1) = false := by
        rw [beq_eq_false_iff_ne]
        omega
      rw [hcond]
      simp only [Bool.false_eq_true, if_false, Prod.mk.injEq]
      refine ⟨by omega, ?_⟩
      rw [lastSeg_append, if_pos hn]
    · have h0 : resp.count '\n' = 0 := List.count_eq_zero.mpr hn
      rw [h0]
      simp only [Nat.zero_add, Prod.mk.injEq]
      refine ⟨by omega, ?_⟩
      rw [if_pos (by decide : ((1 : Nat) == 1) = true), lastSeg_append, if_neg hn,
        List.length_append]
  · rw [List.append_assoc, List.drop_left, List.take_left]

/-! ## Gate-phase characterization lemmas -/

/-- usageFresh ignores the auth fields. -/
theorem usageFresh_set_auth (st : GateState) (x : Option Bool) (y : Nat) :
    usageFresh { st with authStatusCache := x, lastAuthCheck := y } = usageFresh st := rfl

/-- Complete case analysis of the usage-cache behaviour of one gate step:
either a fresh usage check happened (usageFresh held, the counter advanced,
the cache was refilled), or it did not (the cache is untouched, and the
counter advanced only when the usage stage was reached with a stale-free
cache). -/
theorem gate_usage_cases (st : GateState) (env : Env) :
    (Event.usageCheck ∈ (gatePhase st env).2.1
      ∧ usageFresh st = true
      ∧ (gatePhase st env).1.usageCheckCounter = st.usageCheckCounter + 1
      ∧ (gatePhase st env).1.lastUsageAllowed = some env.usageResult)
    ∨ (Event.usageCheck ∉ (gatePhase st env).2.1
      ∧ (gatePhase st env).1.lastUsageAllowed = st.lastUsageAllowed
      ∧ ((gatePhase st env).1.usageCheckCounter = st.usageCheckCounter
          ∨ ((gatePhase st env).1.usageCheckCounter = st.usageCheckCounter + 1
              ∧ usageFresh st = false))) := by
  unfold gatePhase
  by_cases ha : authValue st env = some true
  · rw [if_pos ha]
    rcases env.storedToken with _ | tok
    · right
      refine ⟨?_, rfl, Or.inl rfl⟩
      cases hf : authFresh st env <;> simp
    · by_cases hu : usageFresh st
      · left
        refine ⟨?_, hu, rfl, ?_⟩
        · simp [usageFresh_set_auth, hu]
        · simp [usageValue, usageFresh_set_auth, hu]
      · right
        refine ⟨?_, ?_, Or.inr ⟨rfl, by simpa using hu⟩⟩
        · simp only [usageFresh_set_auth]
          rw [if_neg hu]
          cases hf : authFresh st env <;> simp
        · simp [usageValue, usageFresh_set_auth, hu]
  · rw [if_neg ha]
    right
    refine ⟨?_, rfl, Or.inl rfl⟩
    cases hf : authFresh st env <;> simp

/-- Every gate event is an access check, a token lookup, a usage check, or
the missing-token error message. -/
theorem gate_events_shape (st : GateState) (env : Env) :
    ∀ e ∈ (gatePhase st env).2.1,
      e = Event.accessCheck ∨ e = Event.tokenLookup ∨ e = Event.usageCheck
        ∨ e = Event.errorMsg "Please enter your Promptr access token to continue." := by
  intro e he
  unfold gatePhase at he
  by_cases ha : authValue st env = some true
  · rw [if_pos ha] at he
    revert he
    rcases env.storedToken with _ | tok
    · cases hf : authFresh st env <;> simp <;> tauto
    · cases hf : authFresh st env <;>
        cases hu : usageFresh st <;>
          simp [usageFresh_set_auth, hu] <;> tauto
  · rw [if_neg ha] at he
    revert he
    cases hf : authFresh st env <;> simp
    tauto

/-- The gate events are, in order, a possible access check, then a possible
token lookup, then a possible usage check or error message. -/
theorem gate_events_order (st : GateState) (env : Env) :
    ∃ a t u, (gatePhase st env).2.1 = a ++ t ++ u
      ∧ (∀ e ∈ a, e = Event.accessCheck)
      ∧ (∀ e ∈ t, e = Event.tokenLookup)
      ∧ (∀ e ∈ u, e = Event.usageCheck ∨ ∃ m, e = Event.errorMsg m) := by
  unfold gatePhase
  by_cases ha : authValue st env = some true
  · rw [if_pos ha]
    rcases env.storedToken with _ | tok
    · refine ⟨if authFresh st env then [Event.accessCheck] else [], [Event.tokenLookup],
        [Event.errorMsg "Please enter your Promptr access token to continue."], ?_, ?_, ?_, ?_⟩
      · cases hf : authFresh st env <;> simp
      · cases hf : authFresh st env <;> simp
      · simp
      · simp
    · refine ⟨if authFresh st env then [Event.accessCheck] else [], [Event.tokenLookup],
        if usageFresh st then [Event.usageCheck] else [], ?_, ?_, ?_, ?_⟩
      · simp [usageFresh_set_auth]
      · cases hf : authFresh st env <;> simp
      · simp
      · cases hu : usageFresh st <;> simp
  · rw [if_neg ha]
    refine ⟨if authFresh st env then [Event.accessCheck] else [], [], [], ?_, ?_, ?_, ?_⟩
    · simp
    · cases hf : authFresh st env <;> simp
    · simp
    · simp

/-- Every acquisition event is a clipboard read or a copy keystroke. -/
theorem acquire_events_shape (env : Env) :
    ∀ e ∈ (acquirePhase env).2, e = Event.clipboardRead ∨ e = Event.copyKeystroke := by
  intro e he
  have hbase : ∀ x ∈ (getSelectedTextCrossPlatformRun env).2,
      x = Event.clipboardRead ∨ x = Event.copyKeystroke := by
    intro x hx
    unfold getSelectedTextCrossPlatformRun getChatSelectedTextRun autoCopyRun at hx
    by_cases hsel : (env.editorActive && env.selectionNonEmpty) = true
    · rw [if_pos hsel] at hx
      simp at hx
    · revert hx
      rw [if_neg hsel]
      by_cases hch : (env.editorActive && env.selectionNonEmpty) = true
      · exact absurd hch hsel
      · simp only [hch, if_false, Bool.false_eq_true]
        by_cases hpoll : (postCopyClip env != "" && postCopyClip env != env.clipboard) = true <;>
          by_cases hok : (postCopyClip env != "" && jsTrim (postCopyClip env) != "") = true <;>
            simp [hpoll, hok] <;> tauto
  simp only [acquirePhase] at he
  rcases hr : (getSelectedTextCrossPlatformRun env).1 with _ | t
  · rw [hr] at he
    dsimp only at he
    by_cases hdoc : (env.editorActive && env.documentText != "") = true <;>
      simp only [hdoc, if_true, if_false, Bool.false_eq_true] at he <;>
        exact hbase e he
  · rw [hr] at he
    dsimp only at he
    by_cases ht : (t != "") = true
    · rw [if_pos ht] at he
      exact hbase e he
    · rw [if_neg ht] at he
      by_cases hdoc : (env.editorActive && env.documentText != "") = true <;>
        simp only [hdoc, if_true, if_false, Bool.false_eq_true] at he <;>
          exact hbase e he

/-! ## Usage-cache rate limiting -/

/-- Upper bound on remote usage checks: once the usage cache is filled, a
flagged invocation at offset j implies a multiple-of-ten counter value
within j increments of the current counter. -/
theorem usageFlags_gap_aux (envs : List Env) :
    ∀ (st : GateState) (j : Nat), st.lastUsageAllowed ≠ none →
      (usageFlags st envs).get? j = some true →
      ∃ c, c % 10 = 0 ∧ st.usageCheckCounter ≤ c ∧ c ≤ st.usageCheckCounter + j := by
  induction envs with
  | nil => intro st j _ h; simp [usageFlags] at h
  | cons e es ih =>
    intro st j hcache h
    rcases j with _ | j
    · simp only [usageFlags, List.get?_cons_zero, Option.some.injEq] at h
      have hmem : Event.usageCheck ∈ (gatePhase st e).2.1 := of_decide_eq_true h
      rcases gate_usage_cases st e with ⟨-, hfresh, -, -⟩ | ⟨hno, -, -⟩
      · refine ⟨st.usageCheckCounter, ?_, Nat.le_refl _, Nat.le_add_right _ _⟩
        have hfr : st.usageCheckCounter % 10 = 0 ∨ st.lastUsageAllowed = none := by
          simpa [usageFresh, Option.isNone_iff_eq_none] using hfresh
        rcases hfr with h1 | h2
        · exact h1
        · exact absurd h2 hcache
      · exact absurd hmem hno
    · simp only [usageFlags, List.get?_cons_succ] at h
      have hcache2 : (gatePhase st e).1.lastUsageAllowed ≠ none := by
        rcases gate_usage_cases st e with ⟨-, -, -, hset⟩ | ⟨-, hkeep, -⟩
        · simp [hset]
        · rw [hkeep]; exact hcache
      obtain ⟨c, hc0, hc1, hc2⟩ := ih (gatePhase st e).1 j hcache2 h
      have hmono : st.usageCheckCounter ≤ (gatePhase st e).1.usageCheckCounter
          ∧ (gatePhase st e).1.usageCheckCounter ≤ st.usageCheckCounter + 1 := by
        rcases gate_usage_cases st e with ⟨-, -, hcnt, -⟩ | ⟨-, -, hcnt | ⟨hcnt, -⟩⟩ <;>
          rw [hcnt] <;> omega
      exact ⟨c, hc0, by omega, by omega⟩

/-- Two fresh usage checks over a run started from a state satisfying the
reachability invariant are at least ten invocations apart. -/
theorem usageFlags_gap (envs : List Env) :
    ∀ st : GateState,
      (st.lastUsageAllowed = none → st.usageCheckCounter % 10 = 0) →
      ∀ i j : Nat, i < j →
        (usageFlags st envs).get? i = some true →
        (usageFlags st envs).get? j = some true →
        i + 10 ≤ j := by
  induction envs with
  | nil => intro st _ i j _ hi _; simp [usageFlags] at hi
  | cons e es ih =>
    intro st hInv i j hij hi hj
    rcases i with _ | i
    · rcases j with _ | j
      · omega
      simp only [usageFlags, List.get?_cons_zero, List.get?_cons_succ,
        Option.some.injEq] at hi hj
      have hmem : Event.usageCheck ∈ (gatePhase st e).2.1 := of_decide_eq_true hi
      rcases gate_usage_cases st e with ⟨-, hfresh, hcnt, hset⟩ | ⟨hno, -, -⟩
      · have hmod : st.usageCheckCounter % 10 = 0 := by
          have hfr : st.usageCheckCounter % 10 = 0 ∨ st.lastUsageAllowed = none := by
            simpa [usageFresh, Option.isNone_iff_eq_none] using hfresh
          rcases hfr with h1 | h2
          · exact h1
          · exact hInv h2
        have hcache2 : (gatePhase st e).1.lastUsageAllowed ≠ none := by simp [hset]
        obtain ⟨c, hc0, hc1, hc2⟩ := usageFlags_gap_aux es (gatePhase st e).1 j hcache2 hj
        rw [hcnt] at hc1 hc2
        omega
      · exact absurd hmem hno
    · rcases j with _ | j
      · omega
      simp only [usageFlags, List.get?_cons_succ] at hi hj
      have hInv2 : (gatePhase st e).1.lastUsageAllowed = none →
          (gatePhase st e).1.usageCheckCounter % 10 = 0 := by
        intro hnone
        rcases gate_usage_cases st e with ⟨-, -, -, hset⟩ | ⟨-, hkeep, hcnt | ⟨-, hfl⟩⟩
        · rw [hset] at hnone
          cases hnone
        · rw [hcnt]
          rw [hkeep] at hnone
          exact hInv hnone
        · exfalso
          rw [hkeep] at hnone
          have : usageFresh st = true := by
            unfold usageFresh
            simp [hnone]
          rw [this] at hfl
          cases hfl
      have := ih (gatePhase st e).1 hInv2 i j (by omega) hi hj
      omega

/-- C10: the remote access check runs exactly when no auth decision is
cached or more than 300000 ms have elapsed; the usage-limit check runs only
when the invocation counter is a multiple of ten or no usage decision is
cached; otherwise the gate decides solely on the cached boolean; and over
any run from the initial state two fresh usage-limit checks are at least ten
invocations apart, so at most one in ten consecutive invocations performs
one. -/
theorem c10_gate_caching :
    (∀ (st : GateState) (env : Env),
        Event.accessCheck ∈ (gatePhase st env).2.1
          ↔ (st.authStatusCache = none ∨ 300000 < env.now - st.lastAuthCheck))
    ∧ (∀ (st : GateState) (env : Env),
        Event.usageCheck ∈ (gatePhase st env).2.1
          → (st.usageCheckCounter % 10 = 0 ∨ st.lastUsageAllowed = none))
    ∧ (∀ (st : GateState) (env : Env),
        Event.usageCheck ∉ (gatePhase st env).2.1
        → Event.tokenLookup ∈ (gatePhase st env).2.1
        → env.storedToken ≠ none
        → ((gatePhase st env).2.2 = true ↔ st.lastUsageAllowed = some true))
    ∧ (∀ (envs : List Env) (i j : Nat), i < j
        → (usageFlags initialGateState envs).get? i = some true
        → (usageFlags initialGateState envs).get? j = some true
        → i + 10 ≤ j) := by
  refine ⟨?_, ?_, ?_, ?_⟩
  · intro st env
    have hshape : Event.accessCheck ∈ (gatePhase st env).2.1 ↔ authFresh st env = true := by
      constructor
      · intro he
        unfold gatePhase at he
        by_cases hf : authFresh st env = true
        · exact hf
        · exfalso
          revert he
          by_cases ha : authValue st env = some true
          · rw [if_pos ha]
            rcases env.storedToken with _ | tok <;>
              cases hu : usageFresh st <;>
                simp [usageFresh_set_auth, hu, hf]
          · rw [if_neg ha]
            simp [hf]
      · intro hf
        unfold gatePhase
        by_cases ha : authValue st env = some true
        · rw [if_pos ha]
          rcases env.storedToken with _ | tok <;> simp [hf]
        · rw [if_neg ha]
          simp [hf]
    rw [hshape]
    unfold authFresh
    simp [Option.isNone_iff_eq_none]
  · intro st env hmem
    rcases gate_usage_cases st env with ⟨-, hfresh, -, -⟩ | ⟨hno, -, -⟩
    · have hfr : st.usageCheckCounter % 10 = 0 ∨ st.lastUsageAllowed = none := by
        simpa [usageFresh, Option.isNone_iff_eq_none] using hfresh
      exact hfr
    · exact absurd hmem hno
  · intro st env hno htok htoken
    by_cases ha : authValue st env = some true
    · rcases henv : env.storedToken with _ | tok
      · exact absurd henv htoken
      · have hfresh : usageFresh st = false := by
          by_contra hf
          have hf2 : usageFresh st = true := by
            revert hf
            cases usageFresh st <;> simp
          apply hno
          unfold gatePhase
          rw [if_pos ha, henv]
          simp [usageFresh_set_auth, hf2]
        unfold gatePhase
        rw [if_pos ha, henv]
        try dsimp only
        simp [usageValue, usageFresh_set_auth, hfresh]
    · exfalso
      unfold gatePhase at htok
      rw [if_neg ha] at htok
      revert htok
      cases hf : authFresh st env <;> simp
  · intro envs i j hij hi hj
    exact usageFlags_gap envs initialGateState (fun _ => rfl) i j hij hi hj

/-- C10 witness: on the very first invocation from the initial state the
usage cache is empty, so the fresh-check condition holds. -/
theorem c10_gate_caching_witness :
    initialGateState.usageCheckCounter % 10 = 0
      ∨ initialGateState.lastUsageAllowed = none :=
  c10_gate_caching.2.1 initialGateState envBase (by decide)

/-! ## Post-gate event decomposition -/

/-- Delivery-phase events extend the given prefix with non-gate events. -/
theorem deliveryPhase_events (st : GateState) (ev : List Event) (env : Env)
    (src : TextSource) :
    ∃ r, (deliveryPhase st ev env src).events = ev ++ r
      ∧ ∀ e ∈ r, e ≠ Event.accessCheck ∧ e ≠ Event.tokenLookup ∧ e ≠ Event.usageCheck := by
  simp only [deliveryPhase]
  rcases aiCallRespond env.transport with ⟨m, d⟩ | resp
  · dsimp only
    refine ⟨[Event.request, Event.errorMsg "AI request failed. Please try again."],
      by simp, ?_⟩
    intro e he
    simp only [List.mem_cons, List.not_mem_nil, or_false] at he
    rcases he with rfl | rfl <;> simp
  · dsimp only
    by_cases hl : leakCheck resp (generateSentinel env.sentinelDigits) = true
    · rw [if_pos hl]
      refine ⟨[Event.request,
        Event.warnMsg "AI response was blocked for security reasons."], by simp, ?_⟩
      intro e he
      simp only [List.mem_cons, List.not_mem_nil, or_false] at he
      rcases he with rfl | rfl <;> simp
    · rw [if_neg hl]
      by_cases hsrc : (src == TextSource.editorSelection) = true
      · rw [if_pos hsrc]
        by_cases hedit : env.editApplies = true
        · rw [if_pos hedit]
          refine ⟨[Event.request, Event.editorEdit resp, Event.clipboardWrite resp,
            Event.infoMsg "Promptr: Refined text ready (copied to clipboard)!"],
            by simp, ?_⟩
          intro e he
          simp only [List.mem_cons, List.not_mem_nil, or_false] at he
          rcases he with rfl | rfl | rfl | rfl <;> simp
        · rw [if_neg hedit]
          refine ⟨[Event.request,
            Event.errorMsg "Failed to replace text. Please try again."], by simp, ?_⟩
          intro e he
          simp only [List.mem_cons, List.not_mem_nil, or_false] at he
          rcases he with rfl | rfl <;> simp
      · rw [if_neg hsrc]
        refine ⟨[Event.request, Event.clipboardWrite resp, Event.pasteKeystroke,
          Event.infoMsg "Promptr: Refined text ready (copied to clipboard)!"],
          by simp, ?_⟩
        intro e he
        simp only [List.mem_cons, List.not_mem_nil, or_false] at he
        rcases he with rfl | rfl | rfl | rfl <;> simp

/-- Post-gate events extend the gate events with non-gate events. -/
theorem afterGate_events (st : GateState) (gev : List Event) (env : Env) :
    ∃ r, (afterGate st gev env).events = gev ++ r
      ∧ ∀ e ∈ r, e ≠ Event.accessCheck ∧ e ≠ Event.tokenLookup ∧ e ≠ Event.usageCheck := by
  simp only [afterGate]
  rcases (acquirePhase env).1 with _ | ⟨t, src⟩
  · dsimp only
    refine ⟨[Event.statusRefresh] ++ (acquirePhase env).2
      ++ [Event.errorMsg "Please select some text to refine first."], by simp, ?_⟩
    intro e he
    simp only [List.mem_append, List.mem_cons, List.not_mem_nil, or_false] at he
    rcases he with (rfl | he2) | rfl
    · simp
    · rcases acquire_events_shape env e he2 with rfl | rfl <;> simp
    · simp
  · dsimp only
    by_cases hsus : containsOverridePhrases t = true
    · rw [if_pos hsus]
      refine ⟨[Event.statusRefresh] ++ (acquirePhase env).2, by simp, ?_⟩
      intro e he
      simp only [List.mem_append, List.mem_cons, List.not_mem_nil, or_false] at he
      rcases he with rfl | he2
      · simp
      · rcases acquire_events_shape env e he2 with rfl | rfl <;> simp
    · rw [if_neg hsus]
      obtain ⟨r, hr, hre⟩ :=
        deliveryPhase_events st (gev ++ [Event.statusRefresh] ++ (acquirePhase env).2) env src
      refine ⟨[Event.statusRefresh] ++ (acquirePhase env).2 ++ r, ?_, ?_⟩
      · rw [hr]
        simp [List.append_assoc]
      · intro e he
        simp only [List.mem_append, List.mem_cons, List.not_mem_nil, or_false] at he
        rcases he with (rfl | he2) | he3
        · simp
        · rcases acquire_events_shape env e he2 with rfl | rfl <;> simp
        · exact hre e he3

/-! ## C8: gate ordering and abort -/

/-- C8: on every invocation the gate events form a prefix of the trace in
the order access check, token lookup, usage check, with every later event a
non-gate event (so the checks strictly precede acquisition); and whenever
the gate denies, the trace is exactly the gate events — which contain no
clipboard reads, keystrokes, clipboard writes or editor edits — and no model
request is sent. -/
theorem c8_gate_order_and_abort (st : GateState) (env : Env) :
    ((gatePhase st env).2.2 = false →
      (generatePromptRun st env).events = (gatePhase st env).2.1
      ∧ (∀ e ∈ (gatePhase st env).2.1,
          e ≠ Event.clipboardRead ∧ e ≠ Event.copyKeystroke ∧ e ≠ Event.pasteKeystroke
            ∧ (∀ s, e ≠ Event.clipboardWrite s) ∧ (∀ s, e ≠ Event.editorEdit s))
      ∧ Event.request ∉ (generatePromptRun st env).events)
    ∧ (∃ a t u, (gatePhase st env).2.1 = a ++ t ++ u
        ∧ (∀ e ∈ a, e = Event.accessCheck)
        ∧ (∀ e ∈ t, e = Event.tokenLookup)
        ∧ (∀ e ∈ u, e = Event.usageCheck ∨ ∃ m, e = Event.errorMsg m))
    ∧ (∃ r, (generatePromptRun st env).events = (gatePhase st env).2.1 ++ r
        ∧ ∀ e ∈ r, e ≠ Event.accessCheck ∧ e ≠ Event.tokenLookup ∧ e ≠ Event.usageCheck) := by
  refine ⟨?_, gate_events_order st env, ?_⟩
  · intro habort
    have hrun : generatePromptRun st env
        = ⟨(gatePhase st env).1, (gatePhase st env).2.1, Outcome.aborted⟩ := by
      unfold generatePromptRun
      simp [habort]
    refine ⟨by rw [hrun], ?_, ?_⟩
    · intro e he
      rcases gate_events_shape st env e he with rfl | rfl | rfl | rfl <;> simp
    · rw [hrun]
      intro hreq
      rcases gate_events_shape st env _ hreq with h | h | h | h <;> cases h
  · by_cases hproceed : (gatePhase st env).2.2 = true
    · have hrun : generatePromptRun st env
          = afterGate (gatePhase st env).1 (gatePhase st env).2.1 env := by
        unfold generatePromptRun
        simp [hproceed]
      obtain ⟨r, hr, hre⟩ := afterGate_events (gatePhase st env).1 (gatePhase st env).2.1 env
      exact ⟨r, by rw [hrun, hr], hre⟩
    · have hfalse : (gatePhase st env).2.2 = false := by
        revert hproceed
        cases (gatePhase st env).2.2 <;> simp
      have hrun : generatePromptRun st env
          = ⟨(gatePhase st env).1, (gatePhase st env).2.1, Outcome.aborted⟩ := by
        unfold generatePromptRun
        simp [hfalse]
      exact ⟨[], by rw [hrun]; simp, by simp⟩

/-- C8 witness: with no stored token the gate denies, the trace is exactly
the gate events and no request is sent. -/
theorem c8_gate_order_and_abort_witness :
    (generatePromptRun initialGateState envNoToken).events
      = (gatePhase initialGateState envNoToken).2.1
    ∧ Event.request ∉ (generatePromptRun initialGateState envNoToken).events := by
  have h := (c8_gate_order_and_abort initialGateState envNoToken).1 (by decide)
  exact ⟨h.1, h.2.2⟩

/-! ## C2: editor selection classification -/

/-- C2: for every non-empty active editor selection the acquired text is the
exact selected substring classified as the editor source — in particular,
whatever the clipboard holds (even text equal to the selection), the source
is the editor, preserving the original range for in-place replacement. -/
theorem c2_editor_selection_classified (env : Env)
    (hed : env.editorActive = true) (hsel : env.selectionNonEmpty = true)
    (hne : env.selectionText ≠ "") :
    (acquirePhase env).1 = some (env.selectionText, TextSource.editorSelection)
    ∧ classifySource env env.selectionText = TextSource.editorSelection := by
  have hcls : classifySource env env.selectionText = TextSource.editorSelection := by
    unfold classifySource
    simp [hed, hsel]
  refine ⟨?_, hcls⟩
  simp only [acquirePhase, getSelectedTextCrossPlatformRun, hed, hsel, Bool.and_self,
    if_true]
  try dsimp only
  rw [if_pos (by simpa [bne_iff_ne] using hne), hcls]

/-- C2 witness: an editor selection whose text also equals the clipboard
content is still classified as the editor source. -/
theorem c2_editor_selection_classified_witness :
    (acquirePhase { envBase with clipboard := "fix this sentence" }).1
      = some ("fix this sentence", TextSource.editorSelection) :=
  (c2_editor_selection_classified { envBase with clipboard := "fix this sentence" }
    rfl rfl (by decide)).1

/-! ## C1: acquisition priority -/

/-- C1: acquisition returns the first non-empty source in the strict order
editor selection, post-copy-probe clipboard, clipboard at the fallback read,
full document of an active editor; and when every source is empty, the
command shows the user-facing error and sends no request. -/
theorem c1_acquisition_priority (st : GateState) (env : Env)
    (inv : env.selectionNonEmpty = true → env.selectionText ≠ "") :
    ((acquirePhase env).1.map Prod.fst = (acquisitionSources env).findSome? id)
    ∧ ((acquisitionSources env).findSome? id = none →
        (gatePhase st env).2.2 = true →
        Event.errorMsg "Please select some text to refine first."
            ∈ (generatePromptRun st env).events
        ∧ Event.request ∉ (generatePromptRun st env).events) := by
  have hmain : (acquirePhase env).1.map Prod.fst = (acquisitionSources env).findSome? id := by
    by_cases hsel : (env.editorActive && env.selectionNonEmpty) = true
    · have hne : (env.selectionText != "") = true := by
        rw [Bool.and_eq_true] at hsel
        simpa [bne_iff_ne] using inv hsel.2
      simp only [acquirePhase, getSelectedTextCrossPlatformRun, acquisitionSources, hsel,
        if_true]
      try dsimp only
      simp [hne]
    · have hselF : (env.editorActive && env.selectionNonEmpty) = false := by
        revert hsel
        cases (env.editorActive && env.selectionNonEmpty) <;> simp
      by_cases hclip : (postCopyClip env != "" && jsTrim (postCopyClip env) != "") = true
      · have hne2 : (postCopyClip env != "") = true := by
          rw [Bool.and_eq_true] at hclip
          exact hclip.1
        have hpc : ¬ postCopyClip env = "" := by
          simpa [bne_iff_ne] using hne2
        have hjt : ¬ jsTrim (postCopyClip env) = "" := by
          rw [Bool.and_eq_true] at hclip
          simpa [bne_iff_ne] using hclip.2
        simp only [acquirePhase, getSelectedTextCrossPlatformRun, getChatSelectedTextRun,
          autoCopyRun, acquisitionSources, hselF, Bool.false_eq_true, if_false]
        try dsimp only
        simp [hclip, hne2, hpc, hjt]
      · have hjt2 : jsTrim (postCopyClip env) = "" := by
          by_contra hno
          apply hclip
          rw [Bool.and_eq_true]
          constructor
          · simp only [bne_iff_ne, ne_eq]
            intro h0
            apply hno
            rw [h0]
            rfl
          · simpa [bne_iff_ne] using hno
        simp only [acquirePhase, getSelectedTextCrossPlatformRun, getChatSelectedTextRun,
          autoCopyRun, acquisitionSources, hselF, Bool.false_eq_true, if_false]
        try dsimp only
        by_cases hdoc : (env.editorActive && env.documentText != "") = true
        · simp [hjt2, hdoc]
        · have hdocF : (env.editorActive && env.documentText != "") = false := by
            revert hdoc
            cases (env.editorActive && env.documentText != "") <;> simp
          simp [hjt2, hdocF]
  refine ⟨hmain, fun hnone hgate => ?_⟩
  have h1 : (acquirePhase env).1 = none := by
    rw [hnone] at hmain
    exact Option.map_eq_none'.mp hmain
  have hrun : generatePromptRun st env
      = afterGate (gatePhase st env).1 (gatePhase st env).2.1 env := by
    unfold generatePromptRun
    simp [hgate]
  have hev : (afterGate (gatePhase st env).1 (gatePhase st env).2.1 env).events
      = (gatePhase st env).2.1 ++ [Event.statusRefresh] ++ (acquirePhase env).2
          ++ [Event.errorMsg "Please select some text to refine first."] := by
    simp only [afterGate]
    rw [h1]
  rw [hrun, hev]
  refine ⟨by simp, ?_⟩
  intro hreq
  simp only [List.mem_append, List.mem_cons, List.not_mem_nil, or_false] at hreq
  rcases hreq with ((hg | hs) | ha) | he
  · rcases gate_events_shape st env _ hg with h | h | h | h <;> cases h
  · cases hs
  · rcases acquire_events_shape env _ ha with h | h <;> cases h
  · cases he

/-- C1 witness: with no editor and a pre-copied clipboard the clipboard
source wins, and with every source empty the command shows the error and
sends no request. -/
theorem c1_acquisition_priority_witness :
    ((acquirePhase envClip).1.map Prod.fst = (acquisitionSources envClip).findSome? id)
    ∧ Event.errorMsg "Please select some text to refine first."
        ∈ (generatePromptRun initialGateState envNoText).events
    ∧ Event.request ∉ (generatePromptRun initialGateState envNoText).events := by
  have h2 := (c1_acquisition_priority initialGateState envNoText
    (fun h => absurd h (by decide))).2 (by decide) (by decide)
  exact ⟨(c1_acquisition_priority initialGateState envClip
    (fun h => absurd h (by decide))).1, h2.1, h2.2⟩

/-! ## C5: leak aborts delivery atomically -/

/-- C5: whenever the leak check fires on the model response, delivery is
aborted before any side effect: the whole invocation performs no clipboard
write, no editor edit and no paste keystroke, the user sees the generic
blocked-for-security notice, and the outcome is the leak-blocked state, so
no partial delivery is observable. -/
theorem c5_leak_aborts_delivery (st : GateState) (env : Env) (resp t : String)
    (src : TextSource)
    (hgate : (gatePhase st env).2.2 = true)
    (hacq : (acquirePhase env).1 = some (t, src))
    (hsus : containsOverridePhrases t = false)
    (htr : aiCallRespond env.transport = AiOutcome.resolved resp)
    (hleak : leakCheck resp (generateSentinel env.sentinelDigits) = true) :
    (∀ s, Event.clipboardWrite s ∉ (generatePromptRun st env).events)
    ∧ (∀ s, Event.editorEdit s ∉ (generatePromptRun st env).events)
    ∧ Event.pasteKeystroke ∉ (generatePromptRun st env).events
    ∧ Event.warnMsg "AI response was blocked for security reasons."
        ∈ (generatePromptRun st env).events
    ∧ (generatePromptRun st env).outcome = Outcome.leakBlocked := by
  have hrun : generatePromptRun st env
      = afterGate (gatePhase st env).1 (gatePhase st env).2.1 env := by
    unfold generatePromptRun
    simp [hgate]
  have hAG : afterGate (gatePhase st env).1 (gatePhase st env).2.1 env
      = deliveryPhase (gatePhase st env).1
          ((gatePhase st env).2.1 ++ [Event.statusRefresh] ++ (acquirePhase env).2)
          env src := by
    simp only [afterGate]
    rw [hacq]
    try dsimp only
    rw [if_neg (by simp [hsus])]
  have hDP : deliveryPhase (gatePhase st env).1
      ((gatePhase st env).2.1 ++ [Event.statusRefresh] ++ (acquirePhase env).2) env src
      = ⟨(gatePhase st env).1,
          ((gatePhase st env).2.1 ++ [Event.statusRefresh] ++ (acquirePhase env).2)
            ++ [Event.request]
            ++ [Event.warnMsg "AI response was blocked for security reasons."],
          Outcome.leakBlocked⟩ := by
    simp only [deliveryPhase]
    rw [htr]
    try dsimp only
    rw [if_pos hleak]
  rw [hrun, hAG, hDP]
  refine ⟨?_, ?_, ?_, by simp, rfl⟩
  · intro s hs
    simp only [List.mem_append, List.mem_cons, List.not_mem_nil, or_false] at hs
    rcases hs with (((hg | hss) | ha) | hreq) | hw
    · rcases gate_events_shape st env _ hg with h | h | h | h <;> cases h
    · cases hss
    · rcases acquire_events_shape env _ ha with h | h <;> cases h
    · cases hreq
    · cases hw
  · intro s hs
    simp only [List.mem_append, List.mem_cons, List.not_mem_nil, or_false] at hs
    rcases hs with (((hg | hss) | ha) | hreq) | hw
    · rcases gate_events_shape st env _ hg with h | h | h | h <;> cases h
    · cases hss
    · rcases acquire_events_shape env _ ha with h | h <;> cases h
    · cases hreq
    · cases hw
  · intro hs
    simp only [List.mem_append, List.mem_cons, List.not_mem_nil, or_false] at hs
    rcases hs with (((hg | hss) | ha) | hreq) | hw
    · rcases gate_events_shape st env _ hg with h | h | h | h <;> cases h
    · cases hss
    · rcases acquire_events_shape env _ ha with h | h <;> cases h
    · cases hreq
    · cases hw

/-- C5 witness: on a response that echoes the sentinel, the run blocks with
the security notice, no paste keystroke and the leak-blocked outcome. -/
theorem c5_leak_aborts_delivery_witness :
    Event.pasteKeystroke ∉ (generatePromptRun initialGateState envLeak).events
    ∧ Event.warnMsg "AI response was blocked for security reasons."
        ∈ (generatePromptRun initialGateState envLeak).events
    ∧ (generatePromptRun initialGateState envLeak).outcome = Outcome.leakBlocked := by
  have h := c5_leak_aborts_delivery initialGateState envLeak "\u2063\u2063PROMPTR_12345"
    "fix this sentence" TextSource.editorSelection (by decide) (by decide) (by decide)
    (by decide) (by decide)
  exact ⟨h.2.2.1, h.2.2.2.1, h.2.2.2.2⟩

end Promptr
